/-
Verification of the real-time WebSocket connection manager
(apps/server/src/websocket/{manager,handlers,types}.ts).

The TypeScript core is shallowly embedded as executable Lean definitions:

* JS `Map<string, V>` (insertion-ordered, unique keys) is embedded as an
  association list `List (String × V)` with `mapGet` / `mapSet` / `mapDelete`
  mirroring `Map.get` / `Map.set` / `Map.delete` (set replaces in place,
  appends fresh keys at the end, exactly like JS insertion order).
* JS `Set<WebSocketInstance>` is embedded as a duplicate-free list with
  `setAdd` / `setDelete` mirroring `Set.add` / `Set.delete`.
* A WebSocket instance is embedded as a record carrying the `ws.data`
  fields (`userId`, `email`) attached at upgrade time, a distinguishing
  `connId` standing for JS reference identity, and the transport flag
  `readyStateOpen` standing for `ws.readyState === WebSocket.OPEN`.
* `ws.send(payload)` calls are embedded as an output list of
  `(recipient, message)` pairs returned by each operation; the manager
  mutates no transport state, so this captures everything it emits.
* Fallible JS code (a `throw` that can escape) is embedded with `Except`.
-/
import Mathlib

set_option linter.unusedVariables false

/-- `ws.data` persona attached at upgrade plus transport state: the fields the
manager reads from a connection (`WebSocketData` in types.ts, plus
`readyState`). `connId` models JS object identity of the socket handle. -/
structure WebSocketInstance where
  connId : Nat
  userId : String
  email : String
  readyStateOpen : Bool
deriving DecidableEq, Repr

/-- `ConnectedUser` from types.ts: the per-identity profile stored in
`connectedUsers`. -/
structure ConnectedUser where
  userId : String
  email : String
  connectedAt : String
deriving DecidableEq, Repr

/-- `WebSocketManagerConfig` from types.ts, with the constructor's defaults
(`verboseLogging ?? true`, `maxConnectionsPerUser ?? 0`,
`echoToSender ?? true`) applied. -/
structure WebSocketManagerConfig where
  verboseLogging : Bool := true
  maxConnectionsPerUser : Nat := 0
  echoToSender : Bool := true
deriving DecidableEq, Repr

/-- The configuration produced by `new WebSocketManager({})`. -/
def defaultConfig : WebSocketManagerConfig := {}

/-- `ConnectionLimitError` from types.ts: carries the offending identity and
the configured cap (its `message` string interpolates exactly these two). -/
structure ConnectionLimitError where
  userId : String
  maxConnections : Nat
deriving DecidableEq, Repr

/-- The `message` string of a `ConnectionLimitError`. -/
def ConnectionLimitError.message (e : ConnectionLimitError) : String :=
  "User " ++ e.userId ++ " has reached the maximum connection limit of "
    ++ toString e.maxConnections

/-! ### JS `Map` as an insertion-ordered association list -/

/-- `Map.get k`. -/
def mapGet (m : List (String × α)) (k : String) : Option α :=
  match m with
  | [] => none
  | (k', v) :: rest => if k' = k then some v else mapGet rest k

/-- `Map.has k`. -/
def mapHas (m : List (String × α)) (k : String) : Bool :=
  (mapGet m k).isSome

/-- `Map.set k v`: replace in place if present, else append (JS insertion
order). -/
def mapSet (m : List (String × α)) (k : String) (v : α) : List (String × α) :=
  match m with
  | [] => [(k, v)]
  | (k', v') :: rest =>
    if k' = k then (k, v) :: rest else (k', v') :: mapSet rest k v

/-- `Map.delete k`. -/
def mapDelete (m : List (String × α)) (k : String) : List (String × α) :=
  match m with
  | [] => []
  | (k', v') :: rest => if k' = k then rest else (k', v') :: mapDelete rest k

/-! ### JS `Set` of sockets as a duplicate-free list -/

/-- `Set.add c` (no-op when already present). -/
def setAdd (s : List WebSocketInstance) (c : WebSocketInstance) :
    List WebSocketInstance :=
  if c ∈ s then s else s ++ [c]

/-- `Set.delete c`. -/
def setDelete (s : List WebSocketInstance) (c : WebSocketInstance) :
    List WebSocketInstance :=
  s.filter (fun x => x ≠ c)

/-! ### Manager state and emitted wire messages -/

/-- The two coupled maps of `WebSocketManager`. -/
structure ManagerState where
  connectedUsers : List (String × ConnectedUser)
  wsInstances : List (String × List WebSocketInstance)
deriving DecidableEq, Repr

/-- The state of a freshly constructed manager. -/
def initState : ManagerState := ⟨[], []⟩

/-- The payloads the manager and the handlers write to sockets, one
constructor per `JSON.stringify` shape (plus the plain-text welcome). -/
inductive WireMsg where
  | welcome (email : String)
  | connectedUsers (users : List ConnectedUser)
  | userJoined (user : ConnectedUser)
  | userLeft (userId : String) (email : String)
  | chatMessage (userId : String) (email : String) (message : String)
  | chatBroadcast (userId : String) (email : String) (message : String)
      (timestamp : String)
  | typingIndicator (userId : String) (email : String) (isTyping : Bool)
      (timestamp : String)
  | pong (timestamp : String)
deriving DecidableEq, Repr

/-- One delivered send: which socket received which payload. -/
abbrev Delivery := WebSocketInstance × WireMsg

/-- `sendToConnection`: deliver to one socket if (and only if) its
`readyState` is `OPEN`. -/
def sendToConnection (ws : WebSocketInstance) (msg : WireMsg) :
    List Delivery :=
  if ws.readyStateOpen then [(ws, msg)] else []

/-- Deliver `msg` to every open socket of one identity's set. -/
def sendAll (s : List WebSocketInstance) (msg : WireMsg) : List Delivery :=
  (s.filter (fun c => c.readyStateOpen)).map (fun c => (c, msg))

/-- Deliver `msg` to every open socket of one identity's set, skipping the
excluded socket if given (`broadcastMessage`'s inner loop). -/
def sendAllExcept (s : List WebSocketInstance) (ex : Option WebSocketInstance)
    (msg : WireMsg) : List Delivery :=
  (s.filter (fun c => (if ex = some c then false else c.readyStateOpen))).map
    (fun c => (c, msg))

/-- `broadcastMessage(message, excludeWs?)`: every open socket across every
identity, minus the optional excluded socket. -/
def broadcastMessage (wi : List (String × List WebSocketInstance))
    (msg : WireMsg) (ex : Option WebSocketInstance) : List Delivery :=
  match wi with
  | [] => []
  | (_, s) :: rest => sendAllExcept s ex msg ++ broadcastMessage rest msg ex

/-- `ChatMessageHandler.broadcastToAll`: every open socket across every
identity, no exclusion. -/
def broadcastToAll (wi : List (String × List WebSocketInstance))
    (msg : WireMsg) : List Delivery :=
  match wi with
  | [] => []
  | (_, s) :: rest => sendAll s msg ++ broadcastToAll rest msg

/-- The `forEach`-with-identity-skip loop shared by `broadcastUserJoined` and
`TypingIndicatorHandler.broadcastToOthers`: every open socket of every
identity other than `exUid`. -/
def broadcastExceptUser (wi : List (String × List WebSocketInstance))
    (exUid : String) (msg : WireMsg) : List Delivery :=
  match wi with
  | [] => []
  | (uid, s) :: rest =>
    (if uid = exUid then [] else sendAll s msg)
      ++ broadcastExceptUser rest exUid msg

/-! ### Manager lifecycle operations (manager.ts) -/

/-- `this.wsInstances.get(userId)?.size ?? 0` — the current connection count
of an identity. -/
def connCount (st : ManagerState) (uid : String) : Nat :=
  ((mapGet st.wsInstances uid).map List.length).getD 0

/-- `broadcastUserJoined(newUserId)`: look up the new user's profile and
broadcast a `user_joined` payload to every identity except the joiner. -/
def broadcastUserJoined (st : ManagerState) (newUserId : String) :
    List Delivery :=
  match mapGet st.connectedUsers newUserId with
  | none => []
  | some userData =>
    broadcastExceptUser st.wsInstances newUserId (WireMsg.userJoined userData)

/-- `broadcastUserLeft(leftUserId, leftUserEmail)`. -/
def broadcastUserLeft (st : ManagerState) (leftUserId leftUserEmail : String) :
    List Delivery :=
  broadcastMessage st.wsInstances (WireMsg.userLeft leftUserId leftUserEmail)
    none

/-- `sendConnectedUsersList(ws)`: the roster snapshot
`Array.from(this.connectedUsers.values())` sent to one socket. -/
def sendConnectedUsersList (st : ManagerState) (ws : WebSocketInstance) :
    List Delivery :=
  sendToConnection ws (WireMsg.connectedUsers (st.connectedUsers.map Prod.snd))

/-- `handleOpen(ws)`, statement-by-statement. `now` stands for
`new Date().toISOString()`. Returns the successor state and the list of
deliveries, or the thrown `ConnectionLimitError`. -/
def handleOpen (cfg : WebSocketManagerConfig) (st : ManagerState)
    (ws : WebSocketInstance) (now : String) :
    Except ConnectionLimitError (ManagerState × List Delivery) :=
  let userId := ws.userId
  let email := ws.email
  -- const isNewUser = !this.connectedUsers.has(userId)
  let isNewUser := !(mapHas st.connectedUsers userId)
  -- connection-limit check, before any mutation
  if 0 < cfg.maxConnectionsPerUser ∧
      cfg.maxConnectionsPerUser ≤ connCount st userId then
    Except.error ⟨userId, cfg.maxConnectionsPerUser⟩
  else
    -- this.connectedUsers.set(userId, userData)  (only if new user)
    let connectedUsers1 :=
      if isNewUser then
        mapSet st.connectedUsers userId ⟨userId, email, now⟩
      else st.connectedUsers
    -- if (!this.wsInstances.has(userId)) this.wsInstances.set(userId, new Set())
    let wsInstances1 :=
      if !(mapHas st.wsInstances userId) then mapSet st.wsInstances userId []
      else st.wsInstances
    -- this.wsInstances.get(userId)!.add(ws)
    let wsInstances2 :=
      mapSet wsInstances1 userId (setAdd ((mapGet wsInstances1 userId).getD []) ws)
    let st' : ManagerState := ⟨connectedUsers1, wsInstances2⟩
    let out :=
      sendToConnection ws (WireMsg.welcome email)
        ++ sendConnectedUsersList st' ws
        ++ (if isNewUser then broadcastUserJoined st' userId else [])
    Except.ok (st', out)

/-- `handleClose(ws)`, statement-by-statement. Returns the successor state
and the deliveries. -/
def handleClose (st : ManagerState) (ws : WebSocketInstance) :
    ManagerState × List Delivery :=
  let userId := ws.userId
  match mapGet st.wsInstances userId with
  | none => (st, [])
  | some userWsSet =>
    -- userWsSet.delete(ws) (in-place mutation of the stored set)
    let userWsSet' := setDelete userWsSet ws
    let wsInstances1 := mapSet st.wsInstances userId userWsSet'
    if userWsSet'.length = 0 then
      let userData := mapGet st.connectedUsers userId
      let connectedUsers1 := mapDelete st.connectedUsers userId
      let wsInstances2 := mapDelete wsInstances1 userId
      let st' : ManagerState := ⟨connectedUsers1, wsInstances2⟩
      match userData with
      | some ud => (st', broadcastUserLeft st' userId ud.email)
      | none => (st', [])
    else (⟨st.connectedUsers, wsInstances1⟩, [])

/-- `handleChatMessage(senderWs, message)` on the manager: broadcast to all,
excluding the sender exactly when `echoToSender` is off. -/
def handleChatMessage (cfg : WebSocketManagerConfig) (st : ManagerState)
    (senderWs : WebSocketInstance) (message : String) : List Delivery :=
  broadcastMessage st.wsInstances
    (WireMsg.chatMessage senderWs.userId senderWs.email message)
    (if cfg.echoToSender then none else some senderWs)

/-! ### Lifecycle event sequences (claim C1 quantifies over these) -/

/-- One external lifecycle call made by the Transport Adapter. -/
inductive Event where
  | openEv (ws : WebSocketInstance) (now : String)
  | closeEv (ws : WebSocketInstance)
deriving DecidableEq, Repr

/-- The state transition of one lifecycle call. A `handleOpen` that throws
the capacity error leaves the state exactly as it was. -/
def step (cfg : WebSocketManagerConfig) (st : ManagerState) (e : Event) :
    ManagerState :=
  match e with
  | Event.openEv ws now =>
    match handleOpen cfg st ws now with
    | Except.ok (st', _) => st'
    | Except.error _ => st
  | Event.closeEv ws => (handleClose st ws).1

/-- The manager state after a sequence of lifecycle calls on a fresh
manager. -/
def runEvents (cfg : WebSocketManagerConfig) (es : List Event) : ManagerState :=
  es.foldl (step cfg) initState

/-! ### JSON values and the JS semantics the handlers rely on

`JSON.parse` itself belongs to the host runtime; its outcome on a raw frame
is passed in as an `Option Json` oracle argument (`none` = the parse threw).
Everything downstream of that outcome is embedded from handlers.ts. -/

/-- A parsed JSON value (`JSON.parse` never yields `undefined`). -/
inductive Json where
  | null
  | bool (b : Bool)
  | num (n : Int)
  | str (s : String)
  | arr (elems : List Json)
  | obj (fields : List (String × Json))

/-- JS truthiness of a JSON value (`data && ...`). -/
def jsTruthy : Json → Bool
  | Json.null => false
  | Json.bool b => b
  | Json.num n => n != 0
  | Json.str s => s != ""
  | Json.arr _ => true
  | Json.obj _ => true

/-- `typeof data === "object"` for a JSON value (true for `null`, arrays and
objects). -/
def jsIsObjectType : Json → Bool
  | Json.null => true
  | Json.arr _ => true
  | Json.obj _ => true
  | _ => false

/-- JS property read `v.k`: throws a `TypeError` on `null`, yields the field
on objects, and `undefined` (here `none`) on every other JSON value. -/
def jsGetField : Json → String → Except Unit (Option Json)
  | Json.null, _ => Except.error ()
  | Json.obj fields, k => Except.ok (mapGet fields k)
  | _, _ => Except.ok none

/-- JS property read on a value already known non-null (used after a
truthiness guard): total. -/
def jsFieldSafe : Json → String → Option Json
  | Json.obj fields, k => mapGet fields k
  | _, _ => none

/-- JS `String.prototype.trim()`: strip leading and trailing whitespace.
(Embedded with list recursion so that it evaluates by kernel reduction;
`String.trim` of the standard library is extensionally the same on the
ASCII whitespace the tests use.) -/
def jsTrim (s : String) : String :=
  String.mk
    (((s.data.dropWhile Char.isWhitespace).reverse.dropWhile
        Char.isWhitespace).reverse)

/-- `parseMessage(message)` from handlers.ts. `parsed` is the host
`JSON.parse` outcome on `raw` (`none` = it threw): on success the parsed
value is returned with `isJson = true`; on failure the fallback object
`\x7b type: "chat_message", message: raw \x7d` is returned with
`isJson = false`. -/
def parseMessage (raw : String) (parsed : Option Json) : Json × Bool :=
  match parsed with
  | some data => (data, true)
  | none =>
    (Json.obj [("type", Json.str "chat_message"), ("message", Json.str raw)],
      false)

/-! ### Message handlers and the registry (handlers.ts) -/

/-- The three handlers `MessageHandlerRegistry`'s constructor registers. -/
inductive HandlerKind where
  | chat
  | typing
  | ping
deriving DecidableEq, Repr

/-- `this.handlers.get(data.type)`: the `Map` lookup matches only the three
registered string keys; any other value (including `undefined`) finds no
handler. -/
def registryLookup : Option Json → Option HandlerKind
  | some (Json.str "chat_message") => some HandlerKind.chat
  | some (Json.str "typing_indicator") => some HandlerKind.typing
  | some (Json.str "ping") => some HandlerKind.ping
  | _ => none

/-- `ChatMessageHandler.validate`. -/
def chatValidate (data : Json) : Bool :=
  jsTruthy data && jsIsObjectType data
    && (match jsFieldSafe data "type" with
        | some (Json.str t) => t == "chat_message"
        | _ => false)
    && (match jsFieldSafe data "message" with
        | some (Json.str s) => jsTrim s != ""
        | _ => false)

/-- `TypingIndicatorHandler.validate`. -/
def typingValidate (data : Json) : Bool :=
  jsTruthy data && jsIsObjectType data
    && (match jsFieldSafe data "type" with
        | some (Json.str t) => t == "typing_indicator"
        | _ => false)
    && (match jsFieldSafe data "isTyping" with
        | some (Json.bool _) => true
        | _ => false)

/-- `PingHandler.validate`. -/
def pingValidate (data : Json) : Bool :=
  jsTruthy data && jsIsObjectType data
    && (match jsFieldSafe data "type" with
        | some (Json.str t) => t == "ping"
        | _ => false)

/-- `validate` of the registered handler for each kind. -/
def handlerValidate : HandlerKind → Json → Bool
  | HandlerKind.chat, data => chatValidate data
  | HandlerKind.typing, data => typingValidate data
  | HandlerKind.ping, data => pingValidate data

/-- `ChatMessageHandler.handle`: look up the sender profile first (warn and
drop when absent), then `data.message.trim()` — which throws when
`data.message` is not a string (unreachable behind `validate`) — and
broadcast to all. -/
def chatHandle (ws : WebSocketInstance) (data : Json)
    (connectedUsers : List (String × ConnectedUser))
    (wsInstances : List (String × List WebSocketInstance)) (now : String) :
    Except Unit (List Delivery) :=
  match mapGet connectedUsers ws.userId with
  | none => Except.ok []
  | some userData =>
    match jsFieldSafe data "message" with
    | some (Json.str s) =>
      Except.ok (broadcastToAll wsInstances
        (WireMsg.chatBroadcast userData.userId userData.email (jsTrim s)
          now))
    | _ => Except.error ()

/-- `TypingIndicatorHandler.handle`: look up the sender profile (warn and
drop when absent) and broadcast to every identity but the sender. The
dispatcher only invokes it behind `validate`, which guarantees `isTyping`
is a boolean; the non-boolean branch is unreachable from dispatch. -/
def typingHandle (ws : WebSocketInstance) (data : Json)
    (connectedUsers : List (String × ConnectedUser))
    (wsInstances : List (String × List WebSocketInstance)) (now : String) :
    Except Unit (List Delivery) :=
  match mapGet connectedUsers ws.userId with
  | none => Except.ok []
  | some userData =>
    match jsFieldSafe data "isTyping" with
    | some (Json.bool b) =>
      Except.ok (broadcastExceptUser wsInstances ws.userId
        (WireMsg.typingIndicator userData.userId userData.email b now))
    | _ => Except.ok []

/-- `PingHandler.handle`: unicast a pong back to the sender if open. -/
def pingHandle (ws : WebSocketInstance) (now : String) :
    Except Unit (List Delivery) :=
  Except.ok (sendToConnection ws (WireMsg.pong now))

/-- `handle` of the registered handler for each kind. -/
def handlerHandle (h : HandlerKind) (ws : WebSocketInstance) (data : Json)
    (connectedUsers : List (String × ConnectedUser))
    (wsInstances : List (String × List WebSocketInstance)) (now : String) :
    Except Unit (List Delivery) :=
  match h with
  | HandlerKind.chat => chatHandle ws data connectedUsers wsInstances now
  | HandlerKind.typing => typingHandle ws data connectedUsers wsInstances now
  | HandlerKind.ping => pingHandle ws now

/-- `MessageHandlerRegistry.processMessage(ws, data, connectedUsers,
wsInstances)`. The very first step, `this.handlers.get(data.type)`, reads
`data.type` outside any try/catch, so a `null` payload makes the whole call
throw; afterwards unknown kinds and failed validation return `false`, and a
handler exception is caught and also returns `false`. -/
def processMessage (ws : WebSocketInstance) (data : Json)
    (connectedUsers : List (String × ConnectedUser))
    (wsInstances : List (String × List WebSocketInstance)) (now : String) :
    Except Unit (Bool × List Delivery) :=
  match jsGetField data "type" with
  | Except.error e => Except.error e
  | Except.ok t =>
    match registryLookup t with
    | none => Except.ok (false, [])
    | some h =>
      if handlerValidate h data then
        match handlerHandle h ws data connectedUsers wsInstances now with
        | Except.ok out => Except.ok (true, out)
        | Except.error _ => Except.ok (false, [])
      else Except.ok (false, [])

/-- The `processMessage` closure returned by `createWebSocketSystem(config)`:
decode via `parseMessage`, then dispatch through the registry against the
manager's two maps. The configuration is captured by the manager but never
consulted on this path (the registry receives only the raw maps). -/
def systemProcessMessage (cfg : WebSocketManagerConfig) (st : ManagerState)
    (ws : WebSocketInstance) (raw : String) (parsed : Option Json)
    (now : String) : Except Unit (Bool × List Delivery) :=
  let pr := parseMessage raw parsed
  processMessage ws pr.1 st.connectedUsers st.wsInstances now

/-- The deliveries of a dispatch outcome (empty when the call threw). -/
def outputsOf (r : Except Unit (Bool × List Delivery)) : List Delivery :=
  match r with
  | Except.ok (_, out) => out
  | Except.error _ => []

/-! ### Lemmas about the embedded `Map` operations -/

theorem mapGet_mapSet_self (m : List (String × α)) (k : String) (v : α) :
    mapGet (mapSet m k v) k = some v := by
  induction m with
  | nil => simp [mapGet, mapSet]
  | cons hd tl ih =>
    obtain ⟨k', v'⟩ := hd
    by_cases h : k' = k
    · simp [mapSet, h, mapGet]
    · simp [mapSet, h, mapGet, ih]

theorem mapGet_mapSet_ne (m : List (String × α)) (k k' : String) (v : α)
    (h : k' ≠ k) : mapGet (mapSet m k v) k' = mapGet m k' := by
  induction m with
  | nil => simp [mapGet, mapSet, Ne.symm h]
  | cons hd tl ih =>
    obtain ⟨k₀, v₀⟩ := hd
    by_cases h₀ : k₀ = k
    · subst h₀
      simp [mapSet, mapGet, Ne.symm h]
    · simp only [mapSet, h₀, if_false, mapGet]
      by_cases h₁ : k₀ = k'
      · simp [h₁]
      · simp [h₁, ih]

theorem mapGet_isSome_iff_mem (m : List (String × α)) (k : String) :
    (mapGet m k).isSome ↔ k ∈ m.map Prod.fst := by
  induction m with
  | nil => simp [mapGet]
  | cons hd tl ih =>
    obtain ⟨k', v'⟩ := hd
    by_cases h : k' = k
    · simp [mapGet, h]
    · simp [mapGet, h, ih, Ne.symm h]

theorem mapGet_eq_none_iff (m : List (String × α)) (k : String) :
    mapGet m k = none ↔ k ∉ m.map Prod.fst := by
  rw [← mapGet_isSome_iff_mem, Option.isSome_iff_ne_none]
  simp

theorem keys_mapSet_of_none (m : List (String × α)) (k : String) (v : α)
    (h : mapGet m k = none) :
    (mapSet m k v).map Prod.fst = m.map Prod.fst ++ [k] := by
  induction m with
  | nil => simp [mapSet]
  | cons hd tl ih =>
    obtain ⟨k', v'⟩ := hd
    by_cases h₀ : k' = k
    · simp [mapGet, h₀] at h
    · simp only [mapGet, h₀, if_false] at h
      simp [mapSet, h₀, ih h]

theorem keys_mapSet_of_some (m : List (String × α)) (k : String) (v : α)
    (h : (mapGet m k).isSome) :
    (mapSet m k v).map Prod.fst = m.map Prod.fst := by
  induction m with
  | nil => simp [mapGet] at h
  | cons hd tl ih =>
    obtain ⟨k', v'⟩ := hd
    by_cases h₀ : k' = k
    · simp [mapSet, h₀]
    · simp only [mapGet, h₀, if_false] at h
      simp [mapSet, h₀, ih h]

theorem mem_mapSet_of_nodup (m : List (String × α)) (k : String) (v : α)
    (hnd : (m.map Prod.fst).Nodup) (p : String × α) (hp : p ∈ mapSet m k v) :
    (p ∈ m ∧ p.1 ≠ k) ∨ p = (k, v) := by
  induction m with
  | nil =>
    simp [mapSet] at hp
    exact Or.inr hp
  | cons hd tl ih =>
    obtain ⟨k', v'⟩ := hd
    simp only [List.map_cons, List.nodup_cons] at hnd
    by_cases h₀ : k' = k
    · subst h₀
      simp only [mapSet, if_pos, List.mem_cons] at hp
      rcases hp with hp | hp
      · exact Or.inr hp
      · refine Or.inl ⟨List.mem_cons_of_mem _ hp, ?_⟩
        intro hk
        exact hnd.1 (hk ▸ List.mem_map_of_mem Prod.fst hp)
    · simp only [mapSet, h₀, if_false, List.mem_cons] at hp
      rcases hp with hp | hp
      · exact Or.inl ⟨by simp [hp], by simp [hp, h₀]⟩
      · rcases ih hnd.2 hp with ⟨h₁, h₂⟩ | h₁
        · exact Or.inl ⟨List.mem_cons_of_mem _ h₁, h₂⟩
        · exact Or.inr h₁

theorem keys_mapDelete_sublist (m : List (String × α)) (k : String) :
    List.Sublist ((mapDelete m k).map Prod.fst) (m.map Prod.fst) := by
  induction m with
  | nil => simp [mapDelete]
  | cons hd tl ih =>
    obtain ⟨k', v'⟩ := hd
    by_cases h₀ : k' = k
    · simp only [mapDelete, h₀, if_pos, List.map_cons]
      exact List.sublist_cons_self _ _
    · simp only [mapDelete, h₀, if_false, List.map_cons]
      exact ih.cons₂ k'

theorem mapDelete_keys_congr (m₁ : List (String × α)) (m₂ : List (String × β))
    (k : String) (h : m₁.map Prod.fst = m₂.map Prod.fst) :
    (mapDelete m₁ k).map Prod.fst = (mapDelete m₂ k).map Prod.fst := by
  induction m₁ generalizing m₂ with
  | nil =>
    have : m₂ = [] := by
      cases m₂ with
      | nil => rfl
      | cons hd tl => simp at h
    simp [this, mapDelete]
  | cons hd tl ih =>
    obtain ⟨k₁, v₁⟩ := hd
    cases m₂ with
    | nil => simp at h
    | cons hd₂ tl₂ =>
      obtain ⟨k₂, v₂⟩ := hd₂
      simp only [List.map_cons, List.cons.injEq] at h
      obtain ⟨hk, ht⟩ := h
      subst hk
      by_cases h₀ : k₁ = k
      · simp [mapDelete, h₀, ht]
      · simp [mapDelete, h₀, ih tl₂ ht]

theorem mem_mapDelete_of_nodup (m : List (String × α)) (k : String)
    (hnd : (m.map Prod.fst).Nodup) (p : String × α) (hp : p ∈ mapDelete m k) :
    p ∈ m ∧ p.1 ≠ k := by
  induction m with
  | nil => simp [mapDelete] at hp
  | cons hd tl ih =>
    obtain ⟨k', v'⟩ := hd
    simp only [List.map_cons, List.nodup_cons] at hnd
    by_cases h₀ : k' = k
    · subst h₀
      simp only [mapDelete, if_pos] at hp
      refine ⟨List.mem_cons_of_mem _ hp, ?_⟩
      intro hk
      exact hnd.1 (hk ▸ List.mem_map_of_mem Prod.fst hp)
    · simp only [mapDelete, h₀, if_false, List.mem_cons] at hp
      rcases hp with hp | hp
      · exact ⟨by simp [hp], by simp [hp, h₀]⟩
      · obtain ⟨h₁, h₂⟩ := ih hnd.2 hp
        exact ⟨List.mem_cons_of_mem _ h₁, h₂⟩

theorem mapGet_mapDelete_self (m : List (String × α)) (k : String)
    (hnd : (m.map Prod.fst).Nodup) : mapGet (mapDelete m k) k = none := by
  rw [mapGet_eq_none_iff]
  intro hmem
  obtain ⟨p, hp, hfst⟩ := List.mem_map.mp hmem
  obtain ⟨_, h₂⟩ := mem_mapDelete_of_nodup m k hnd p hp
  exact h₂ hfst

theorem mapGet_mapDelete_ne (m : List (String × α)) (k k' : String)
    (h : k' ≠ k) : mapGet (mapDelete m k) k' = mapGet m k' := by
  induction m with
  | nil => simp [mapDelete]
  | cons hd tl ih =>
    obtain ⟨k₀, v₀⟩ := hd
    by_cases h₀ : k₀ = k
    · subst h₀
      simp [mapDelete, mapGet, Ne.symm h]
    · simp only [mapDelete, h₀, if_false, mapGet]
      by_cases h₁ : k₀ = k'
      · simp [h₁]
      · simp [h₁, ih]

theorem mapGet_mem (m : List (String × α)) (k : String) (v : α)
    (h : mapGet m k = some v) : (k, v) ∈ m := by
  induction m with
  | nil => simp [mapGet] at h
  | cons hd tl ih =>
    obtain ⟨k', v'⟩ := hd
    by_cases h₀ : k' = k
    · subst h₀
      simp only [mapGet, if_pos, Option.some.injEq] at h
      simp [h]
    · simp only [mapGet, h₀, if_false] at h
      exact List.mem_cons_of_mem _ (ih h)

theorem mapGet_mem_values (m : List (String × α)) (k : String) (v : α)
    (h : mapGet m k = some v) : v ∈ m.map Prod.snd :=
  List.mem_map.mpr ⟨(k, v), mapGet_mem m k v h, rfl⟩

theorem mem_mapGet_of_nodup (m : List (String × α)) (k : String) (v : α)
    (hnd : (m.map Prod.fst).Nodup) (h : (k, v) ∈ m) : mapGet m k = some v := by
  induction m with
  | nil => simp at h
  | cons hd tl ih =>
    obtain ⟨k', v'⟩ := hd
    simp only [List.map_cons, List.nodup_cons] at hnd
    rcases List.mem_cons.mp h with h₁ | h₁
    · obtain ⟨hk, hv⟩ := Prod.mk.injEq .. ▸ h₁
      simp_all [mapGet]
    · have hne : k' ≠ k := by
        intro hk
        exact hnd.1 (hk ▸ List.mem_map_of_mem Prod.fst h₁)
      simp [mapGet, hne, ih hnd.2 h₁]

theorem mem_mapSet_of_mem_ne (m : List (String × α)) (k : String) (v : α)
    (p : String × α) (hp : p ∈ m) (hne : p.1 ≠ k) : p ∈ mapSet m k v := by
  induction m with
  | nil => simp at hp
  | cons hd tl ih =>
    obtain ⟨k', v'⟩ := hd
    by_cases h₀ : k' = k
    · subst h₀
      simp only [mapSet, if_pos, List.mem_cons]
      rcases List.mem_cons.mp hp with hp₁ | hp₁
      · exact absurd (by simp [hp₁]) hne
      · exact Or.inr hp₁
    · simp only [mapSet, h₀, if_false, List.mem_cons]
      rcases List.mem_cons.mp hp with hp₁ | hp₁
      · exact Or.inl hp₁
      · exact Or.inr (ih hp₁)

/-! ### Lemmas about the embedded `Set` operations -/

theorem mem_setAdd (s : List WebSocketInstance) (c x : WebSocketInstance) :
    x ∈ setAdd s c ↔ x ∈ s ∨ x = c := by
  unfold setAdd
  by_cases h : c ∈ s
  · simp only [if_pos h]
    constructor
    · exact Or.inl
    · rintro (hx | rfl)
      · exact hx
      · exact h
  · simp [if_neg h]

theorem setAdd_ne_nil (s : List WebSocketInstance) (c : WebSocketInstance) :
    setAdd s c ≠ [] := by
  unfold setAdd
  by_cases h : c ∈ s
  · simp only [if_pos h]
    rintro rfl
    simp at h
  · simp [if_neg h]

theorem setAdd_nodup (s : List WebSocketInstance) (c : WebSocketInstance)
    (h : s.Nodup) : (setAdd s c).Nodup := by
  unfold setAdd
  by_cases hc : c ∈ s
  · simpa [if_pos hc] using h
  · simp [if_neg hc, List.nodup_append, h, hc]

theorem mem_setDelete (s : List WebSocketInstance) (c x : WebSocketInstance) :
    x ∈ setDelete s c ↔ x ∈ s ∧ x ≠ c := by
  simp [setDelete]

theorem setDelete_nodup (s : List WebSocketInstance) (c : WebSocketInstance)
    (h : s.Nodup) : (setDelete s c).Nodup :=
  h.filter _

/-- Deleting a present element of a duplicate-free set shrinks it by exactly
one. -/
theorem setDelete_length (s : List WebSocketInstance) (c : WebSocketInstance)
    (hnd : s.Nodup) (hc : c ∈ s) : (setDelete s c).length + 1 = s.length := by
  induction s with
  | nil => simp at hc
  | cons hd tl ih =>
    rw [List.nodup_cons] at hnd
    by_cases h₀ : hd = c
    · subst h₀
      have : setDelete (hd :: tl) hd = tl := by
        simp only [setDelete, List.filter_cons, ne_eq, not_true_eq_false,
          decide_False, if_false]
        exact List.filter_eq_self.mpr fun x hx => by
          simp only [decide_eq_true_eq]
          intro hxc
          exact hnd.1 (hxc ▸ hx)
      simp [this]
    · have hc' : c ∈ tl := by
        rcases List.mem_cons.mp hc with h | h
        · exact absurd h.symm h₀
        · exact h
      have : setDelete (hd :: tl) c = hd :: setDelete tl c := by
        simp [setDelete, List.filter_cons, h₀]
      rw [this]
      simp only [List.length_cons]
      rw [ih hnd.2 hc']

/-! ### Membership in the delivery lists of the send/broadcast primitives -/

theorem mem_sendToConnection (ws c : WebSocketInstance) (msg m' : WireMsg) :
    (c, m') ∈ sendToConnection ws msg ↔
      c = ws ∧ ws.readyStateOpen = true ∧ m' = msg := by
  unfold sendToConnection
  by_cases h : ws.readyStateOpen
  · simp only [if_pos h, List.mem_singleton, Prod.mk.injEq]
    constructor
    · rintro ⟨rfl, rfl⟩
      exact ⟨rfl, h, rfl⟩
    · rintro ⟨rfl, _, rfl⟩
      exact ⟨rfl, rfl⟩
  · simp only [if_neg h, List.not_mem_nil, false_iff]
    rintro ⟨rfl, hopen, rfl⟩
    exact h hopen

theorem sendToConnection_welcome_inv (ws c : WebSocketInstance)
    (msg m' : WireMsg) (h : (c, m') ∈ sendToConnection ws msg) :
    c = ws ∧ m' = msg := by
  unfold sendToConnection at h
  by_cases hw : ws.readyStateOpen
  · simp only [if_pos hw, List.mem_singleton, Prod.mk.injEq] at h
    exact h
  · simp [if_neg hw] at h

theorem mem_sendAll (s : List WebSocketInstance) (msg : WireMsg)
    (c : WebSocketInstance) (m' : WireMsg) :
    (c, m') ∈ sendAll s msg ↔
      c ∈ s ∧ c.readyStateOpen = true ∧ m' = msg := by
  simp only [sendAll, List.mem_map, List.mem_filter, Prod.mk.injEq]
  constructor
  · rintro ⟨x, ⟨hx, hopen⟩, rfl, rfl⟩
    exact ⟨hx, hopen, rfl⟩
  · rintro ⟨hc, hopen, rfl⟩
    exact ⟨c, ⟨hc, hopen⟩, rfl, rfl⟩

theorem mem_sendAllExcept (s : List WebSocketInstance)
    (ex : Option WebSocketInstance) (msg : WireMsg) (c : WebSocketInstance)
    (m' : WireMsg) :
    (c, m') ∈ sendAllExcept s ex msg ↔
      c ∈ s ∧ ex ≠ some c ∧ c.readyStateOpen = true ∧ m' = msg := by
  simp only [sendAllExcept, List.mem_map, List.mem_filter, Prod.mk.injEq]
  constructor
  · rintro ⟨x, ⟨hx, hcond⟩, rfl, rfl⟩
    by_cases hex : ex = some x
    · simp [hex] at hcond
    · rw [if_neg hex] at hcond
      exact ⟨hx, hex, hcond, rfl⟩
  · rintro ⟨hc, hex, hopen, rfl⟩
    exact ⟨c, ⟨hc, by rw [if_neg hex]; exact hopen⟩, rfl, rfl⟩

theorem mem_broadcastToAll (wi : List (String × List WebSocketInstance))
    (msg : WireMsg) (c : WebSocketInstance) (m' : WireMsg) :
    (c, m') ∈ broadcastToAll wi msg ↔
      (∃ p, p ∈ wi ∧ c ∈ p.2) ∧ c.readyStateOpen = true ∧ m' = msg := by
  induction wi with
  | nil => simp [broadcastToAll]
  | cons hd tl ih =>
    obtain ⟨uid, s⟩ := hd
    simp only [broadcastToAll, List.mem_append, mem_sendAll, ih,
      List.mem_cons]
    constructor
    · rintro (⟨hc, hopen, rfl⟩ | ⟨⟨p, hp, hcp⟩, hopen, rfl⟩)
      · exact ⟨⟨(uid, s), Or.inl rfl, hc⟩, hopen, rfl⟩
      · exact ⟨⟨p, Or.inr hp, hcp⟩, hopen, rfl⟩
    · rintro ⟨⟨p, hp | hp, hcp⟩, hopen, rfl⟩
      · exact Or.inl ⟨by simpa [hp] using hcp, hopen, rfl⟩
      · exact Or.inr ⟨⟨p, hp, hcp⟩, hopen, rfl⟩

theorem mem_broadcastMessage (wi : List (String × List WebSocketInstance))
    (msg : WireMsg) (ex : Option WebSocketInstance) (c : WebSocketInstance)
    (m' : WireMsg) :
    (c, m') ∈ broadcastMessage wi msg ex ↔
      (∃ p, p ∈ wi ∧ c ∈ p.2) ∧ ex ≠ some c ∧ c.readyStateOpen = true ∧
        m' = msg := by
  induction wi with
  | nil => simp [broadcastMessage]
  | cons hd tl ih =>
    obtain ⟨uid, s⟩ := hd
    simp only [broadcastMessage, List.mem_append, mem_sendAllExcept, ih,
      List.mem_cons]
    constructor
    · rintro (⟨hc, hex, hopen, rfl⟩ | ⟨⟨p, hp, hcp⟩, hex, hopen, rfl⟩)
      · exact ⟨⟨(uid, s), Or.inl rfl, hc⟩, hex, hopen, rfl⟩
      · exact ⟨⟨p, Or.inr hp, hcp⟩, hex, hopen, rfl⟩
    · rintro ⟨⟨p, hp | hp, hcp⟩, hex, hopen, rfl⟩
      · exact Or.inl ⟨by simpa [hp] using hcp, hex, hopen, rfl⟩
      · exact Or.inr ⟨⟨p, hp, hcp⟩, hex, hopen, rfl⟩

theorem mem_broadcastExceptUser (wi : List (String × List WebSocketInstance))
    (exUid : String) (msg : WireMsg) (c : WebSocketInstance) (m' : WireMsg) :
    (c, m') ∈ broadcastExceptUser wi exUid msg ↔
      (∃ p, p ∈ wi ∧ p.1 ≠ exUid ∧ c ∈ p.2) ∧ c.readyStateOpen = true ∧
        m' = msg := by
  induction wi with
  | nil => simp [broadcastExceptUser]
  | cons hd tl ih =>
    obtain ⟨uid, s⟩ := hd
    simp only [broadcastExceptUser, List.mem_append, ih, List.mem_cons]
    by_cases huid : uid = exUid
    · simp only [if_pos huid, List.not_mem_nil, false_or]
      constructor
      · rintro ⟨⟨p, hp, hne, hcp⟩, hopen, rfl⟩
        exact ⟨⟨p, Or.inr hp, hne, hcp⟩, hopen, rfl⟩
      · rintro ⟨⟨p, hp | hp, hne, hcp⟩, hopen, rfl⟩
        · exact absurd (by simp [hp, huid]) hne
        · exact ⟨⟨p, hp, hne, hcp⟩, hopen, rfl⟩
    · simp only [if_neg huid, List.mem_append, mem_sendAll]
      constructor
      · rintro (⟨hc, hopen, rfl⟩ | ⟨⟨p, hp, hne, hcp⟩, hopen, rfl⟩)
        · exact ⟨⟨(uid, s), Or.inl rfl, huid, hc⟩, hopen, rfl⟩
        · exact ⟨⟨p, Or.inr hp, hne, hcp⟩, hopen, rfl⟩
      · rintro ⟨⟨p, hp | hp, hne, hcp⟩, hopen, rfl⟩
        · exact Or.inl ⟨by simpa [hp] using hcp, hopen, rfl⟩
        · exact Or.inr ⟨⟨p, hp, hne, hcp⟩, hopen, rfl⟩

/-! ### The well-formedness invariant of reachable manager states -/

/-- `c` is currently stored in some identity's connection set. -/
def ConnInState (st : ManagerState) (c : WebSocketInstance) : Prop :=
  ∃ p, p ∈ st.wsInstances ∧ c ∈ p.2

instance (st : ManagerState) (c : WebSocketInstance) :
    Decidable (ConnInState st c) := by
  unfold ConnInState
  exact List.decidableBEx _ _

/-- Well-formedness of a manager state: the two maps have duplicate-free and
identical key lists (`profiles` and `liveConnections` in lock step, with the
same insertion order), every stored connection set is non-empty,
duplicate-free, and holds only sockets tagged with its own key, and every
profile carries its own key as `userId`. -/
def StateWF (st : ManagerState) : Prop :=
  (st.connectedUsers.map Prod.fst).Nodup ∧
  st.connectedUsers.map Prod.fst = st.wsInstances.map Prod.fst ∧
  (∀ p ∈ st.wsInstances, p.2 ≠ [] ∧ p.2.Nodup ∧ ∀ c ∈ p.2, c.userId = p.1) ∧
  (∀ q ∈ st.connectedUsers, q.2.userId = q.1)

instance (st : ManagerState) : Decidable (StateWF st) := by
  unfold StateWF
  infer_instance

theorem StateWF.cuNodup (h : StateWF st) :
    (st.connectedUsers.map Prod.fst).Nodup := h.1

theorem StateWF.keysEq (h : StateWF st) :
    st.connectedUsers.map Prod.fst = st.wsInstances.map Prod.fst := h.2.1

theorem StateWF.wiNodup (h : StateWF st) :
    (st.wsInstances.map Prod.fst).Nodup := h.keysEq ▸ h.cuNodup

theorem StateWF.some_iff (h : StateWF st) (uid : String) :
    (mapGet st.connectedUsers uid).isSome ↔
      (mapGet st.wsInstances uid).isSome := by
  rw [mapGet_isSome_iff_mem, mapGet_isSome_iff_mem, h.keysEq]

theorem StateWF.entry (h : StateWF st) (uid : String)
    (s : List WebSocketInstance) (hs : mapGet st.wsInstances uid = some s) :
    s ≠ [] ∧ s.Nodup ∧ ∀ c ∈ s, c.userId = uid :=
  h.2.2.1 (uid, s) (mapGet_mem _ _ _ hs)

theorem StateWF.profile (h : StateWF st) (uid : String) (ud : ConnectedUser)
    (hu : mapGet st.connectedUsers uid = some ud) : ud.userId = uid :=
  h.2.2.2 (uid, ud) (mapGet_mem _ _ _ hu)

theorem stateWF_init : StateWF initState := by
  refine ⟨?_, ?_, ?_, ?_⟩ <;> simp [initState]

/-- With well-formed state, the connection count of an identity is zero
exactly when its set is absent. -/
theorem connCount_eq_zero_iff (st : ManagerState) (uid : String)
    (hwf : StateWF st) : connCount st uid = 0 ↔
      mapGet st.wsInstances uid = none := by
  unfold connCount
  cases hs : mapGet st.wsInstances uid with
  | none => simp
  | some s =>
    obtain ⟨hne, -, -⟩ := hwf.entry uid s hs
    simp [List.length_eq_zero, hne]

/-! ### Branch equations for `handleOpen` and `handleClose` -/

/-- The capacity error branch of `handleOpen`: no state is produced. -/
theorem handleOpen_cap_error (cfg : WebSocketManagerConfig)
    (st : ManagerState) (ws : WebSocketInstance) (now : String)
    (hcap : 0 < cfg.maxConnectionsPerUser ∧
      cfg.maxConnectionsPerUser ≤ connCount st ws.userId) :
    handleOpen cfg st ws now =
      Except.error ⟨ws.userId, cfg.maxConnectionsPerUser⟩ := by
  unfold handleOpen
  rw [if_pos hcap]

/-- The successor state of a successful `handleOpen` (spelled out). -/
def openState (st : ManagerState) (ws : WebSocketInstance) (now : String) :
    ManagerState :=
  let connectedUsers1 :=
    if !(mapHas st.connectedUsers ws.userId) then
      mapSet st.connectedUsers ws.userId ⟨ws.userId, ws.email, now⟩
    else st.connectedUsers
  let wsInstances1 :=
    if !(mapHas st.wsInstances ws.userId) then mapSet st.wsInstances ws.userId []
    else st.wsInstances
  ⟨connectedUsers1,
    mapSet wsInstances1 ws.userId
      (setAdd ((mapGet wsInstances1 ws.userId).getD []) ws)⟩

/-- The deliveries of a successful `handleOpen` (spelled out). -/
def openDeliveries (st : ManagerState) (ws : WebSocketInstance)
    (now : String) : List Delivery :=
  sendToConnection ws (WireMsg.welcome ws.email)
    ++ sendConnectedUsersList (openState st ws now) ws
    ++ (if !(mapHas st.connectedUsers ws.userId) then
          broadcastUserJoined (openState st ws now) ws.userId
        else [])

/-- The successful branch of `handleOpen`. -/
theorem handleOpen_ok (cfg : WebSocketManagerConfig) (st : ManagerState)
    (ws : WebSocketInstance) (now : String)
    (hcap : ¬(0 < cfg.maxConnectionsPerUser ∧
      cfg.maxConnectionsPerUser ≤ connCount st ws.userId)) :
    handleOpen cfg st ws now =
      Except.ok (openState st ws now, openDeliveries st ws now) := by
  unfold handleOpen
  rw [if_neg hcap]
  rfl

/-- `handleClose` on a socket whose identity has no stored set. -/
theorem handleClose_absent (st : ManagerState) (ws : WebSocketInstance)
    (h : mapGet st.wsInstances ws.userId = none) :
    handleClose st ws = (st, []) := by
  unfold handleClose
  simp [h]

/-- `handleClose` when connections remain afterwards: only the set shrinks,
nothing is sent. -/
theorem handleClose_remaining (st : ManagerState) (ws : WebSocketInstance)
    (s : List WebSocketInstance) (h : mapGet st.wsInstances ws.userId = some s)
    (hlen : ¬(setDelete s ws).length = 0) :
    handleClose st ws =
      (⟨st.connectedUsers, mapSet st.wsInstances ws.userId (setDelete s ws)⟩,
        []) := by
  unfold handleClose
  simp [h, hlen]

/-- The successor state of a last-connection `handleClose` (spelled out). -/
def closeDrainState (st : ManagerState) (ws : WebSocketInstance)
    (s : List WebSocketInstance) : ManagerState :=
  ⟨mapDelete st.connectedUsers ws.userId,
    mapDelete (mapSet st.wsInstances ws.userId (setDelete s ws)) ws.userId⟩

/-- `handleClose` on the identity's last connection: both entries are
deleted and `user_left` is broadcast with the stored profile's email. -/
theorem handleClose_drain (st : ManagerState) (ws : WebSocketInstance)
    (s : List WebSocketInstance) (ud : ConnectedUser)
    (h : mapGet st.wsInstances ws.userId = some s)
    (hlen : (setDelete s ws).length = 0)
    (hud : mapGet st.connectedUsers ws.userId = some ud) :
    handleClose st ws =
      (closeDrainState st ws s,
        broadcastUserLeft (closeDrainState st ws s) ws.userId ud.email) := by
  unfold handleClose
  simp [h, hlen, hud, closeDrainState]

/-- `openState` when the identity is new: both maps gain a fresh entry. -/
theorem openState_new (st : ManagerState) (ws : WebSocketInstance)
    (now : String) (hNew : mapGet st.connectedUsers ws.userId = none)
    (hwiNone : mapGet st.wsInstances ws.userId = none) :
    openState st ws now =
      ⟨mapSet st.connectedUsers ws.userId ⟨ws.userId, ws.email, now⟩,
        mapSet (mapSet st.wsInstances ws.userId []) ws.userId [ws]⟩ := by
  unfold openState
  simp [mapHas, hNew, hwiNone, mapGet_mapSet_self, setAdd]

/-- `openState` when the identity already exists: only its set grows. -/
theorem openState_existing (st : ManagerState) (ws : WebSocketInstance)
    (now : String) (ud : ConnectedUser) (s0 : List WebSocketInstance)
    (hSome : mapGet st.connectedUsers ws.userId = some ud)
    (hs : mapGet st.wsInstances ws.userId = some s0) :
    openState st ws now =
      ⟨st.connectedUsers, mapSet st.wsInstances ws.userId (setAdd s0 ws)⟩ := by
  unfold openState
  simp [mapHas, hSome, hs]

/-- `openDeliveries` when the identity is new: welcome, roster, and the
presence-joined broadcast. -/
theorem openDeliveries_new (st : ManagerState) (ws : WebSocketInstance)
    (now : String) (hNew : mapGet st.connectedUsers ws.userId = none) :
    openDeliveries st ws now =
      sendToConnection ws (WireMsg.welcome ws.email)
        ++ sendConnectedUsersList (openState st ws now) ws
        ++ broadcastUserJoined (openState st ws now) ws.userId := by
  unfold openDeliveries
  simp [mapHas, hNew]

/-- `openDeliveries` for an additional connection of an existing identity:
welcome and roster only, no presence broadcast. -/
theorem openDeliveries_existing (st : ManagerState) (ws : WebSocketInstance)
    (now : String) (ud : ConnectedUser)
    (hSome : mapGet st.connectedUsers ws.userId = some ud) :
    openDeliveries st ws now =
      sendToConnection ws (WireMsg.welcome ws.email)
        ++ sendConnectedUsersList (openState st ws now) ws := by
  unfold openDeliveries
  simp [mapHas, hSome]

/-! ### Preservation of well-formedness by the lifecycle operations -/

theorem stateWF_openState (st : ManagerState) (ws : WebSocketInstance)
    (now : String) (hwf : StateWF st) : StateWF (openState st ws now) := by
  obtain ⟨hnd, hkeys, hwi, hcu⟩ := hwf
  have hwf' : StateWF st := ⟨hnd, hkeys, hwi, hcu⟩
  have hndWi : (st.wsInstances.map Prod.fst).Nodup := hkeys ▸ hnd
  cases hNew : mapGet st.connectedUsers ws.userId with
  | none =>
    have hwiNone : mapGet st.wsInstances ws.userId = none := by
      rw [mapGet_eq_none_iff] at hNew ⊢
      rw [← hkeys]
      exact hNew
    have hnotMemCu : ws.userId ∉ st.connectedUsers.map Prod.fst :=
      (mapGet_eq_none_iff _ _).mp hNew
    have hnotMemWi : ws.userId ∉ st.wsInstances.map Prod.fst :=
      (mapGet_eq_none_iff _ _).mp hwiNone
    rw [openState_new st ws now hNew hwiNone]
    have hkeysCu :
        (mapSet st.connectedUsers ws.userId
          ⟨ws.userId, ws.email, now⟩).map Prod.fst =
          st.connectedUsers.map Prod.fst ++ [ws.userId] :=
      keys_mapSet_of_none _ _ _ hNew
    have hkeysWi1 :
        (mapSet st.wsInstances ws.userId []).map Prod.fst =
          st.wsInstances.map Prod.fst ++ [ws.userId] :=
      keys_mapSet_of_none _ _ _ hwiNone
    have hndWi1 : ((mapSet st.wsInstances ws.userId []).map Prod.fst).Nodup := by
      rw [hkeysWi1]
      simp [List.nodup_append, hndWi, hnotMemWi]
    have hkeysWi2 :
        (mapSet (mapSet st.wsInstances ws.userId []) ws.userId [ws]).map
            Prod.fst =
          st.wsInstances.map Prod.fst ++ [ws.userId] := by
      rw [keys_mapSet_of_some _ _ _ (by simp [mapGet_mapSet_self]), hkeysWi1]
    refine ⟨?_, ?_, ?_, ?_⟩
    · rw [hkeysCu]
      simp [List.nodup_append, hnd, hnotMemCu]
    · rw [hkeysCu, hkeysWi2, hkeys]
    · intro p hp
      rcases mem_mapSet_of_nodup _ _ _ hndWi1 p hp with ⟨hp₁, hp₂⟩ | hp₁
      · rcases mem_mapSet_of_nodup _ _ _ hndWi p hp₁ with ⟨hq₁, _⟩ | hq₁
        · exact hwi p hq₁
        · exact absurd (by simp [hq₁]) hp₂
      · subst hp₁
        refine ⟨by simp, by simp, ?_⟩
        intro c hc
        simp only [List.mem_singleton] at hc
        simp [hc]
    · intro q hq
      rcases mem_mapSet_of_nodup _ _ _ hnd q hq with ⟨hq₁, _⟩ | hq₁
      · exact hcu q hq₁
      · simp [hq₁]
  | some ud =>
    have hwiSome : (mapGet st.wsInstances ws.userId).isSome := by
      rw [← hwf'.some_iff]
      simp [hNew]
    obtain ⟨s0, hs0⟩ := Option.isSome_iff_exists.mp hwiSome
    obtain ⟨hs0ne, hs0nd, hs0mem⟩ := hwf'.entry ws.userId s0 hs0
    rw [openState_existing st ws now ud s0 hNew hs0]
    refine ⟨hnd, ?_, ?_, hcu⟩
    · rw [keys_mapSet_of_some _ _ _ (by simp [hs0]), hkeys]
    · intro p hp
      rcases mem_mapSet_of_nodup _ _ _ hndWi p hp with ⟨hp₁, _⟩ | hp₁
      · exact hwi p hp₁
      · subst hp₁
        refine ⟨setAdd_ne_nil _ _, setAdd_nodup _ _ hs0nd, ?_⟩
        intro c hc
        rcases (mem_setAdd s0 ws c).mp hc with hc₁ | hc₁
        · exact hs0mem c hc₁
        · simp [hc₁]

theorem stateWF_handleClose (st : ManagerState) (ws : WebSocketInstance)
    (hwf : StateWF st) : StateWF (handleClose st ws).1 := by
  obtain ⟨hnd, hkeys, hwi, hcu⟩ := hwf
  have hwf' : StateWF st := ⟨hnd, hkeys, hwi, hcu⟩
  have hndWi : (st.wsInstances.map Prod.fst).Nodup := hkeys ▸ hnd
  cases hs : mapGet st.wsInstances ws.userId with
  | none => rw [handleClose_absent st ws hs]; exact hwf'
  | some s =>
    obtain ⟨hsne, hsnd, hsmem⟩ := hwf'.entry ws.userId s hs
    have hkeysWi1 :
        (mapSet st.wsInstances ws.userId (setDelete s ws)).map Prod.fst =
          st.wsInstances.map Prod.fst :=
      keys_mapSet_of_some _ _ _ (by simp [hs])
    by_cases hlen : (setDelete s ws).length = 0
    · -- last connection: both entries are deleted
      have hcuSome : (mapGet st.connectedUsers ws.userId).isSome := by
        rw [hwf'.some_iff]
        simp [hs]
      obtain ⟨ud, hud⟩ := Option.isSome_iff_exists.mp hcuSome
      rw [handleClose_drain st ws s ud hs hlen hud]
      unfold closeDrainState
      have hndWi1 :
          ((mapSet st.wsInstances ws.userId (setDelete s ws)).map
            Prod.fst).Nodup := by
        rw [hkeysWi1]; exact hndWi
      refine ⟨?_, ?_, ?_, ?_⟩
      · exact ((keys_mapDelete_sublist _ _).nodup hnd)
      · exact mapDelete_keys_congr _ _ _ (by rw [hkeys, hkeysWi1])
      · intro p hp
        obtain ⟨hp₁, hp₂⟩ := mem_mapDelete_of_nodup _ _ hndWi1 p hp
        rcases mem_mapSet_of_nodup _ _ _ hndWi p hp₁ with ⟨hq₁, _⟩ | hq₁
        · exact hwi p hq₁
        · exact absurd (by simp [hq₁]) hp₂
      · intro q hq
        obtain ⟨hq₁, _⟩ := mem_mapDelete_of_nodup _ _ hnd q hq
        exact hcu q hq₁
    · -- other connections remain: only the set shrinks
      rw [handleClose_remaining st ws s hs hlen]
      refine ⟨hnd, by rw [hkeysWi1, hkeys], ?_, hcu⟩
      intro p hp
      rcases mem_mapSet_of_nodup _ _ _ hndWi p hp with ⟨hp₁, _⟩ | hp₁
      · exact hwi p hp₁
      · subst hp₁
        refine ⟨?_, setDelete_nodup _ _ hsnd, ?_⟩
        · intro hnil
          exact hlen (by rw [show setDelete s ws = [] from hnil]; rfl)
        · intro c hc
          exact hsmem c ((mem_setDelete s ws c).mp hc).1

theorem stateWF_step (cfg : WebSocketManagerConfig) (st : ManagerState)
    (e : Event) (hwf : StateWF st) : StateWF (step cfg st e) := by
  cases e with
  | openEv ws now =>
    simp only [step]
    by_cases hcap : 0 < cfg.maxConnectionsPerUser ∧
        cfg.maxConnectionsPerUser ≤ connCount st ws.userId
    · rw [handleOpen_cap_error cfg st ws now hcap]
      exact hwf
    · rw [handleOpen_ok cfg st ws now hcap]
      exact stateWF_openState st ws now hwf
  | closeEv ws =>
    simp only [step]
    exact stateWF_handleClose st ws hwf

theorem stateWF_foldl (cfg : WebSocketManagerConfig) (es : List Event) :
    ∀ st, StateWF st → StateWF (es.foldl (step cfg) st) := by
  induction es with
  | nil => exact fun st h => h
  | cons e tl ih =>
    intro st hwf
    exact ih (step cfg st e) (stateWF_step cfg st e hwf)

/-- Every state reachable by a sequence of lifecycle calls on a fresh
manager is well-formed. -/
theorem stateWF_runEvents (cfg : WebSocketManagerConfig) (es : List Event) :
    StateWF (runEvents cfg es) :=
  stateWF_foldl cfg es initState stateWF_init

/-! ### Concrete fixtures used by witnesses and counterexamples -/

/-- An open socket of user `a`. -/
def uaConn : WebSocketInstance := ⟨0, "a", "a@x", true⟩

/-- An open socket of user `b`. -/
def ubConn : WebSocketInstance := ⟨1, "b", "b@x", true⟩

/-- A second open socket of user `a`. -/
def ua2Conn : WebSocketInstance := ⟨2, "a", "a@x", true⟩

/-- A second open socket of user `b`. -/
def ub2Conn : WebSocketInstance := ⟨3, "b", "b@x", true⟩

/-- An open socket tagged with the empty-string identity. -/
def anonConn : WebSocketInstance := ⟨7, "", "anon@x", true⟩

/-- The stored profile of user `a`. -/
def cuA : ConnectedUser := ⟨"a", "a@x", "t0"⟩

/-- The stored profile of user `b`. -/
def cuB : ConnectedUser := ⟨"b", "b@x", "t0"⟩

/-- State with only `b` online (one socket). -/
def stB : ManagerState := ⟨[("b", cuB)], [("b", [ubConn])]⟩

/-- State with `a` and `b` online (one socket each). -/
def stAB : ManagerState :=
  ⟨[("a", cuA), ("b", cuB)], [("a", [uaConn]), ("b", [ubConn])]⟩

/-- State with `a` online with two sockets (two tabs). -/
def stA2 : ManagerState := ⟨[("a", cuA)], [("a", [uaConn, ua2Conn])]⟩

/-- A well-formed chat frame payload (`message` = `"hi"`). -/
def chatJson : Json :=
  Json.obj [("type", Json.str "chat_message"), ("message", Json.str "hi")]

/-- The raw frame text whose `JSON.parse` image is `chatJson`. -/
def chatRaw : String :=
  "\x7b\"type\":\"chat_message\",\"message\":\"hi\"\x7d"

/-! ### C1 — presence invariant over all lifecycle sequences -/

/-- C1: for every sequence of `handleOpen`/`handleClose` calls, at every
point between calls an identity holds a profile in `connectedUsers` exactly
when its `wsInstances` entry exists and is non-empty, so no external caller
ever observes the two maps with differing key sets. -/
theorem presence_invariant_c1 (cfg : WebSocketManagerConfig)
    (es : List Event) (uid : String) :
    (mapGet (runEvents cfg es).connectedUsers uid).isSome ↔
      ∃ s, mapGet (runEvents cfg es).wsInstances uid = some s ∧ s ≠ [] := by
  have hwf := stateWF_runEvents cfg es
  constructor
  · intro h
    obtain ⟨s, hs⟩ :=
      Option.isSome_iff_exists.mp ((hwf.some_iff uid).mp h)
    exact ⟨s, hs, (hwf.entry uid s hs).1⟩
  · rintro ⟨s, hs, -⟩
    exact (hwf.some_iff uid).mpr (by simp [hs])

/-- Instantiation of the presence invariant after one concrete `handleOpen`
call. -/
theorem presence_invariant_c1_witness :
    ∃ s, mapGet (runEvents defaultConfig
        [Event.openEv uaConn "t1"]).wsInstances "a" = some s ∧ s ≠ [] :=
  (presence_invariant_c1 defaultConfig [Event.openEv uaConn "t1"] "a").mp
    (by decide)

/-! ### C2 — a frame reading `"null"` escapes the dispatch boundary -/

/-- C2 (failing input): the raw frame `"null"` is valid JSON, so
`parseMessage` yields the JSON `null` value with `isJson = true`; dispatch
then evaluates `data.type` on `null`, which throws a `TypeError` that
propagates out of `processMessage` to the transport layer — contradicting
the policy that only the capacity error ever escapes the core. -/
theorem null_frame_dispatch_throws_c2 :
    systemProcessMessage defaultConfig stB ubConn "null" (some Json.null)
      "t1" = Except.error () := rfl

/-! ### C3 — fallback decoding of non-JSON and kindless-JSON frames -/

/-- C3 (counterexample): the frame `"\x7b\x7d"` is valid JSON with no
`type` field; `parseMessage` does **not** convert it to a chat-text message
(its decode result has no `message` field at all and keeps `isJson = true`),
and the dispatch then drops it (`false`, nothing delivered) instead of
handling it as chat. -/
theorem kindless_json_not_chat_c3_cex :
    parseMessage "\x7b\x7d" (some (Json.obj [])) = (Json.obj [], true) ∧
    jsFieldSafe (parseMessage "\x7b\x7d" (some (Json.obj []))).1 "message" =
      none ∧
    systemProcessMessage defaultConfig stB ubConn "\x7b\x7d"
      (some (Json.obj [])) "t1" = Except.ok (false, []) :=
  ⟨rfl, rfl, rfl⟩

/-- C3 (amended): only a frame that is not valid JSON gets the chat-text
fallback, with `message` equal to the raw frame text verbatim and
`isJson = false`; a frame that parses as JSON — even without a recognizable
`type` field — is returned as its parsed value with `isJson = true` and is
not converted to a chat message. -/
theorem malformed_frame_fallback_c3 :
    (∀ raw : String, parseMessage raw none =
      (Json.obj [("type", Json.str "chat_message"),
        ("message", Json.str raw)], false)) ∧
    (∀ (raw : String) (j : Json), parseMessage raw (some j) = (j, true)) :=
  ⟨fun _ => rfl, fun _ _ => rfl⟩

/-! ### C5 — user_joined exactly on the 0→1 transition, only to others -/

/-- Everything `broadcastUserJoined` emits is a `user_joined` payload. -/
theorem mem_broadcastUserJoined_msg (st₂ : ManagerState) (uid : String)
    (c : WebSocketInstance) (m : WireMsg)
    (h : (c, m) ∈ broadcastUserJoined st₂ uid) :
    ∃ ud, m = WireMsg.userJoined ud := by
  unfold broadcastUserJoined at h
  cases h₂ : mapGet st₂.connectedUsers uid with
  | none => rw [h₂] at h; simp at h
  | some ud =>
    rw [h₂] at h
    obtain ⟨-, -, hmsg⟩ := (mem_broadcastExceptUser _ _ _ _ _).mp h
    exact ⟨ud, hmsg⟩

/-- C5: on a successful `handleOpen`, a `user_joined` broadcast is never
delivered to a socket of the opening identity; when the identity already
had at least one connection (a second tab) no `user_joined` is delivered to
anyone; and on the 0→1 transition every open stored socket of every other
identity receives the `user_joined` event carrying the new profile. -/
theorem user_joined_announcement_c5 (cfg : WebSocketManagerConfig)
    (st st' : ManagerState) (ws : WebSocketInstance) (now : String)
    (out : List Delivery) (hwf : StateWF st)
    (hok : handleOpen cfg st ws now = Except.ok (st', out)) :
    (∀ c ud, (c, WireMsg.userJoined ud) ∈ out → c.userId ≠ ws.userId) ∧
    (connCount st ws.userId ≠ 0 →
      ∀ c ud, (c, WireMsg.userJoined ud) ∉ out) ∧
    (connCount st ws.userId = 0 → ∀ c, ConnInState st c →
      c.readyStateOpen = true → c.userId ≠ ws.userId →
      (c, WireMsg.userJoined ⟨ws.userId, ws.email, now⟩) ∈ out) := by
  by_cases hcap : 0 < cfg.maxConnectionsPerUser ∧
      cfg.maxConnectionsPerUser ≤ connCount st ws.userId
  · rw [handleOpen_cap_error cfg st ws now hcap] at hok
    cases hok
  rw [handleOpen_ok cfg st ws now hcap] at hok
  injection hok with h₁
  injection h₁ with h₂ h₃
  subst h₃
  cases hNew : mapGet st.connectedUsers ws.userId with
  | some ud =>
    rw [openDeliveries_existing st ws now ud hNew]
    have hwiSome : (mapGet st.wsInstances ws.userId).isSome := by
      rw [← hwf.some_iff]
      simp [hNew]
    have hcc : connCount st ws.userId ≠ 0 := by
      intro h0
      rw [connCount_eq_zero_iff st ws.userId hwf] at h0
      simp [h0] at hwiSome
    have hnojoin : ∀ c ud', (c, WireMsg.userJoined ud') ∉
        sendToConnection ws (WireMsg.welcome ws.email)
          ++ sendConnectedUsersList (openState st ws now) ws := by
      intro c ud' hmem
      rcases List.mem_append.mp hmem with h | h
      · obtain ⟨-, habs⟩ := sendToConnection_welcome_inv ws c _ _ h
        simp at habs
      · simp only [sendConnectedUsersList] at h
        obtain ⟨-, habs⟩ := sendToConnection_welcome_inv ws c _ _ h
        simp at habs
    exact ⟨fun c ud' hmem => absurd hmem (hnojoin c ud'),
      fun _ c ud' => hnojoin c ud',
      fun h0 => absurd h0 hcc⟩
  | none =>
    have hwiNone : mapGet st.wsInstances ws.userId = none := by
      rw [mapGet_eq_none_iff] at hNew ⊢
      rw [← hwf.keysEq]
      exact hNew
    rw [openDeliveries_new st ws now hNew]
    have hstEq := openState_new st ws now hNew hwiNone
    have hprof : mapGet (openState st ws now).connectedUsers ws.userId =
        some ⟨ws.userId, ws.email, now⟩ := by
      rw [hstEq]
      exact mapGet_mapSet_self _ _ _
    have hwf' : StateWF (openState st ws now) :=
      stateWF_openState st ws now hwf
    have hjoinEq : broadcastUserJoined (openState st ws now) ws.userId =
        broadcastExceptUser (openState st ws now).wsInstances ws.userId
          (WireMsg.userJoined ⟨ws.userId, ws.email, now⟩) := by
      unfold broadcastUserJoined
      rw [hprof]
    refine ⟨?_, ?_, ?_⟩
    · intro c ud' hmem
      rcases List.mem_append.mp hmem with hmem₁ | hmem₂
      · rcases List.mem_append.mp hmem₁ with h | h
        · obtain ⟨-, habs⟩ := sendToConnection_welcome_inv ws c _ _ h
          simp at habs
        · simp only [sendConnectedUsersList] at h
          obtain ⟨-, habs⟩ := sendToConnection_welcome_inv ws c _ _ h
          simp at habs
      · rw [hjoinEq] at hmem₂
        obtain ⟨⟨p, hp, hpne, hcp⟩, -, -⟩ :=
          (mem_broadcastExceptUser _ _ _ _ _).mp hmem₂
        have := (hwf'.2.2.1 p hp).2.2 c hcp
        rw [this]
        exact hpne
    · intro hne
      exact absurd ((connCount_eq_zero_iff st ws.userId hwf).mpr hwiNone) hne
    · intro h0 c hin hopen hne
      obtain ⟨p, hp, hcp⟩ := hin
      refine List.mem_append.mpr (Or.inr ?_)
      rw [hjoinEq]
      refine (mem_broadcastExceptUser _ _ _ _ _).mpr ⟨⟨p, ?_, ?_, hcp⟩, hopen, rfl⟩
      · rw [hstEq]
        have hp1 : p.1 ≠ ws.userId := by
          rw [← hwf.2.2.1 p hp |>.2.2 c hcp]
          exact hne
        exact mem_mapSet_of_mem_ne _ _ _ p
          (mem_mapSet_of_mem_ne _ _ _ p hp hp1) hp1
      · rw [← hwf.2.2.1 p hp |>.2.2 c hcp]
        exact hne

/-- Instantiation: with only `b` online, `a` opening its first socket makes
`b`'s socket receive the `user_joined` event for `a`. -/
theorem user_joined_announcement_c5_witness :
    (ubConn, WireMsg.userJoined ⟨"a", "a@x", "t1"⟩) ∈
      openDeliveries stB uaConn "t1" :=
  (user_joined_announcement_c5 defaultConfig stB (openState stB uaConn "t1")
      uaConn "t1" (openDeliveries stB uaConn "t1") (by decide) rfl).2.2
    (by decide) ubConn (by decide) (by decide) (by decide)

/-! ### C9 — welcome and roster go to the joiner only, post-insertion -/

/-- `openState` leaves `connectedUsers` unchanged for an existing user. -/
theorem openState_connectedUsers_existing (st : ManagerState)
    (ws : WebSocketInstance) (now : String) (ud : ConnectedUser)
    (hSome : mapGet st.connectedUsers ws.userId = some ud) :
    (openState st ws now).connectedUsers = st.connectedUsers := by
  unfold openState
  simp [mapHas, hSome]

/-- C9: on a successful `handleOpen` of an open socket, the welcome message
and the `connected_users` roster are delivered to the new socket and to no
other socket, and the roster is the post-insertion snapshot, so it contains
the joiner's own profile. -/
theorem welcome_roster_c9 (cfg : WebSocketManagerConfig)
    (st st' : ManagerState) (ws : WebSocketInstance) (now : String)
    (out : List Delivery) (hwf : StateWF st)
    (hopen : ws.readyStateOpen = true)
    (hok : handleOpen cfg st ws now = Except.ok (st', out)) :
    (ws, WireMsg.welcome ws.email) ∈ out ∧
    (ws, WireMsg.connectedUsers (st'.connectedUsers.map Prod.snd)) ∈ out ∧
    (∀ c e, (c, WireMsg.welcome e) ∈ out → c = ws) ∧
    (∀ c l, (c, WireMsg.connectedUsers l) ∈ out →
      c = ws ∧ l = st'.connectedUsers.map Prod.snd) ∧
    (∃ ud, ud ∈ st'.connectedUsers.map Prod.snd ∧ ud.userId = ws.userId) := by
  by_cases hcap : 0 < cfg.maxConnectionsPerUser ∧
      cfg.maxConnectionsPerUser ≤ connCount st ws.userId
  · rw [handleOpen_cap_error cfg st ws now hcap] at hok
    cases hok
  rw [handleOpen_ok cfg st ws now hcap] at hok
  injection hok with h₁
  injection h₁ with h₂ h₃
  subst h₂
  subst h₃
  unfold openDeliveries
  refine ⟨?_, ?_, ?_, ?_, ?_⟩
  · refine List.mem_append.mpr (Or.inl (List.mem_append.mpr (Or.inl ?_)))
    exact (mem_sendToConnection ws ws _ _).mpr ⟨rfl, hopen, rfl⟩
  · refine List.mem_append.mpr (Or.inl (List.mem_append.mpr (Or.inr ?_)))
    simp only [sendConnectedUsersList]
    exact (mem_sendToConnection ws ws _ _).mpr ⟨rfl, hopen, rfl⟩
  · intro c e hmem
    rcases List.mem_append.mp hmem with hmem₁ | hmem₂
    · rcases List.mem_append.mp hmem₁ with h | h
      · exact (sendToConnection_welcome_inv ws c _ _ h).1
      · simp only [sendConnectedUsersList] at h
        obtain ⟨-, habs⟩ := sendToConnection_welcome_inv ws c _ _ h
        simp at habs
    · by_cases hNew : mapHas st.connectedUsers ws.userId
      · simp [hNew] at hmem₂
      · simp only [Bool.not_eq_true] at hNew
        simp only [hNew, Bool.not_false, if_true] at hmem₂
        obtain ⟨ud', habs⟩ := mem_broadcastUserJoined_msg _ _ _ _ hmem₂
        simp at habs
  · intro c l hmem
    rcases List.mem_append.mp hmem with hmem₁ | hmem₂
    · rcases List.mem_append.mp hmem₁ with h | h
      · obtain ⟨-, habs⟩ := sendToConnection_welcome_inv ws c _ _ h
        simp at habs
      · simp only [sendConnectedUsersList] at h
        obtain ⟨hc, hmsg⟩ := sendToConnection_welcome_inv ws c _ _ h
        refine ⟨hc, ?_⟩
        injection hmsg
    · by_cases hNew : mapHas st.connectedUsers ws.userId
      · simp [hNew] at hmem₂
      · simp only [Bool.not_eq_true] at hNew
        simp only [hNew, Bool.not_false, if_true] at hmem₂
        obtain ⟨ud', habs⟩ := mem_broadcastUserJoined_msg _ _ _ _ hmem₂
        simp at habs
  · cases hNew : mapGet st.connectedUsers ws.userId with
    | none =>
      have hwiNone : mapGet st.wsInstances ws.userId = none := by
        rw [mapGet_eq_none_iff] at hNew ⊢
        rw [← hwf.keysEq]
        exact hNew
      have hprof : mapGet (openState st ws now).connectedUsers ws.userId =
          some ⟨ws.userId, ws.email, now⟩ := by
        rw [openState_new st ws now hNew hwiNone]
        exact mapGet_mapSet_self _ _ _
      exact ⟨⟨ws.userId, ws.email, now⟩,
        mapGet_mem_values _ _ _ hprof, rfl⟩
    | some ud =>
      have hprof : mapGet (openState st ws now).connectedUsers ws.userId =
          some ud := by
        rw [openState_connectedUsers_existing st ws now ud hNew]
        exact hNew
      exact ⟨ud, mapGet_mem_values _ _ _ hprof, hwf.profile _ _ hNew⟩

/-- Instantiation: the welcome message of a concrete `handleOpen` reaches
the joining socket. -/
theorem welcome_roster_c9_witness :
    (uaConn, WireMsg.welcome "a@x") ∈ openDeliveries stB uaConn "t1" :=
  (welcome_roster_c9 defaultConfig stB (openState stB uaConn "t1") uaConn
      "t1" (openDeliveries stB uaConn "t1") (by decide) (by decide) rfl).1

/-! ### C7 — capacity enforcement rejects without mutating -/

/-- C7: with a positive configured cap, `handleOpen` for an identity whose
connection count has reached the cap throws a `ConnectionLimitError`
carrying that identity and the cap, and the rejected call leaves both maps
untouched. -/
theorem capacity_rejection_c7 (cfg : WebSocketManagerConfig)
    (st : ManagerState) (ws : WebSocketInstance) (now : String)
    (hpos : 0 < cfg.maxConnectionsPerUser)
    (hge : cfg.maxConnectionsPerUser ≤ connCount st ws.userId) :
    handleOpen cfg st ws now =
      Except.error ⟨ws.userId, cfg.maxConnectionsPerUser⟩ ∧
    step cfg st (Event.openEv ws now) = st := by
  have herr := handleOpen_cap_error cfg st ws now ⟨hpos, hge⟩
  refine ⟨herr, ?_⟩
  simp [step, herr]

/-- Instantiation of the capacity rejection: cap 1, `b` already holds one
socket, a second socket of `b` is rejected and the state is unchanged. -/
theorem capacity_rejection_c7_witness :
    handleOpen ⟨true, 1, true⟩ stB ub2Conn "t1" =
      Except.error ⟨"b", 1⟩ ∧
    step ⟨true, 1, true⟩ stB (Event.openEv ub2Conn "t1") = stB :=
  capacity_rejection_c7 ⟨true, 1, true⟩ stB ub2Conn "t1" (by decide)
    (by decide)

/-! ### C6 — user_left only when the last connection drains -/

/-- C6: for an identity with at least two stored connections, `handleClose`
on one of them sends nothing and leaves `connectedUsers` untouched; on the
identity's last connection it deletes both the profile and the connection
set and delivers a `user_left` event carrying that identity's `userId` and
the stored profile's `email` to exactly the open sockets that remain in
the registry. -/
theorem user_left_on_drain_c6 (st : ManagerState) (ws : WebSocketInstance)
    (s : List WebSocketInstance) (hwf : StateWF st)
    (hs : mapGet st.wsInstances ws.userId = some s) (hws : ws ∈ s) :
    (2 ≤ s.length →
      (handleClose st ws).2 = [] ∧
      (handleClose st ws).1.connectedUsers = st.connectedUsers) ∧
    (s = [ws] → ∀ ud, mapGet st.connectedUsers ws.userId = some ud →
      mapGet (handleClose st ws).1.connectedUsers ws.userId = none ∧
      mapGet (handleClose st ws).1.wsInstances ws.userId = none ∧
      ∀ c, ((c, WireMsg.userLeft ws.userId ud.email) ∈ (handleClose st ws).2 ↔
        ConnInState (handleClose st ws).1 c ∧ c.readyStateOpen = true)) := by
  obtain ⟨hsne, hsnd, hsmem⟩ := hwf.entry ws.userId s hs
  constructor
  · intro hlen2
    have hcount := setDelete_length s ws hsnd hws
    have hlen : ¬(setDelete s ws).length = 0 := by omega
    rw [handleClose_remaining st ws s hs hlen]
    exact ⟨rfl, rfl⟩
  · rintro rfl ud hud
    have hlen : (setDelete [ws] ws).length = 0 := by simp [setDelete]
    rw [handleClose_drain st ws [ws] ud hs hlen hud]
    refine ⟨mapGet_mapDelete_self _ _ hwf.cuNodup, ?_, ?_⟩
    · refine mapGet_mapDelete_self _ _ ?_
      rw [keys_mapSet_of_some _ _ _ (by simp [hs])]
      exact hwf.wiNodup
    · intro c
      unfold broadcastUserLeft
      rw [mem_broadcastMessage]
      unfold ConnInState
      constructor
      · rintro ⟨⟨p, hp, hcp⟩, -, hopen, -⟩
        exact ⟨⟨p, hp, hcp⟩, hopen⟩
      · rintro ⟨⟨p, hp, hcp⟩, hopen⟩
        exact ⟨⟨p, hp, hcp⟩, by simp, hopen, rfl⟩

/-- Instantiation: closing one of `a`'s two tabs sends nothing and leaves
the profile map untouched. -/
theorem user_left_on_drain_c6_witness :
    (handleClose stA2 uaConn).2 = [] ∧
    (handleClose stA2 uaConn).1.connectedUsers = stA2.connectedUsers :=
  (user_left_on_drain_c6 stA2 uaConn [uaConn, ua2Conn] (by decide) rfl
    (by decide)).1 (by decide)

/-! ### C4 — the echoToSender flag and chat broadcasts -/

/-- C4 (counterexample): with `echoToSender := false`, a valid chat frame
dispatched through the `createWebSocketSystem` wiring is still delivered
back to the sender's own socket — the registry's `ChatMessageHandler`
broadcasts to all and never consults the flag. -/
theorem echo_off_sender_receives_c4_cex :
    (uaConn, WireMsg.chatBroadcast "a" "a@x" "hi" "t1") ∈
      outputsOf (systemProcessMessage ⟨true, 0, false⟩ stAB uaConn chatRaw
        (some chatJson) "t1") := by decide

/-- C4 (amended): a valid chat frame through the dispatch wiring is
delivered to the sender's own open socket for **every** configuration —
the `echoToSender` flag is ignored on that path; the flag does control
sender echo, but only in the manager's own `handleChatMessage` path, where
the sender receives its broadcast exactly when `echoToSender` is true. -/
theorem echo_policy_c4_amended (cfg : WebSocketManagerConfig)
    (st : ManagerState) (ws : WebSocketInstance) (ud : ConnectedUser)
    (s : List WebSocketInstance) (raw now m : String)
    (hwi : mapGet st.wsInstances ws.userId = some s) (hmem : ws ∈ s)
    (hopen : ws.readyStateOpen = true)
    (hud : mapGet st.connectedUsers ws.userId = some ud)
    (hm : jsTrim m ≠ "") :
    (ws, WireMsg.chatBroadcast ud.userId ud.email (jsTrim m) now) ∈
      outputsOf (systemProcessMessage cfg st ws raw
        (some (Json.obj [("type", Json.str "chat_message"),
          ("message", Json.str m)])) now) ∧
    ((ws, WireMsg.chatMessage ws.userId ws.email m) ∈
        handleChatMessage cfg st ws m ↔ cfg.echoToSender = true) := by
  constructor
  · have hval : chatValidate (Json.obj [("type", Json.str "chat_message"),
        ("message", Json.str m)]) = true := by
      simp [chatValidate, jsTruthy, jsIsObjectType, jsFieldSafe, mapGet, hm]
    have hrun : systemProcessMessage cfg st ws raw
        (some (Json.obj [("type", Json.str "chat_message"),
          ("message", Json.str m)])) now =
        Except.ok (true, broadcastToAll st.wsInstances
          (WireMsg.chatBroadcast ud.userId ud.email (jsTrim m) now)) := by
      unfold systemProcessMessage parseMessage processMessage
      simp [jsGetField, mapGet, registryLookup, handlerValidate, hval,
        handlerHandle, chatHandle, hud, jsFieldSafe]
    rw [hrun]
    unfold outputsOf
    rw [mem_broadcastToAll]
    exact ⟨⟨(ws.userId, s), mapGet_mem _ _ _ hwi, hmem⟩, hopen, rfl⟩
  · unfold handleChatMessage
    cases hecho : cfg.echoToSender with
    | false =>
      simp only [hecho, Bool.false_eq_true, if_false]
      rw [mem_broadcastMessage]
      simp
    | true =>
      simp only [hecho, if_true]
      have hin : (ws, WireMsg.chatMessage ws.userId ws.email m) ∈
          broadcastMessage st.wsInstances
            (WireMsg.chatMessage ws.userId ws.email m) none :=
        (mem_broadcastMessage _ _ _ _ _).mpr
          ⟨⟨(ws.userId, s), mapGet_mem _ _ _ hwi, hmem⟩, by simp, hopen, rfl⟩
      simp [hin]

/-- Instantiation of the amended echo policy at the default (echo-on)
configuration. -/
theorem echo_policy_c4_amended_witness :
    ((uaConn, WireMsg.chatBroadcast "a" "a@x" "hi" "t1") ∈
      outputsOf (systemProcessMessage defaultConfig stAB uaConn chatRaw
        (some (Json.obj [("type", Json.str "chat_message"),
          ("message", Json.str "hi")])) "t1")) ∧
    ((uaConn, WireMsg.chatMessage "a" "a@x" "hi") ∈
        handleChatMessage defaultConfig stAB uaConn "hi" ↔
      defaultConfig.echoToSender = true) :=
  echo_policy_c4_amended defaultConfig stAB uaConn cuA [uaConn] chatRaw "t1"
    "hi" rfl (by decide) (by decide) rfl (by decide)

/-! ### C8 — what processMessage's boolean result actually reports -/

/-- C8 (counterexample): a valid chat frame from a connection whose
identity has no stored profile is dropped by the handler (nothing
delivered), yet `processMessage` returns `true`. -/
theorem dropped_chat_returns_true_c8_cex :
    processMessage uaConn chatJson [] [] "t1" = Except.ok (true, []) := rfl

/-- C8 (amended): `processMessage` returns `false` for an unregistered
kind, for a frame that fails the handler's `validate`, and for a handler
that throws; but a frame the handler drops internally — e.g. a chat message
whose connection identity has no profile — still yields `true` (with no
deliveries), because the handler returned normally. -/
theorem process_result_c8_amended (ws : WebSocketInstance) (data : Json)
    (t : Option Json) (cu : List (String × ConnectedUser))
    (wi : List (String × List WebSocketInstance)) (now : String)
    (ht : jsGetField data "type" = Except.ok t) :
    (registryLookup t = none →
      processMessage ws data cu wi now = Except.ok (false, [])) ∧
    (∀ h, registryLookup t = some h → handlerValidate h data = false →
      processMessage ws data cu wi now = Except.ok (false, [])) ∧
    (∀ h, registryLookup t = some h → handlerValidate h data = true →
      handlerHandle h ws data cu wi now = Except.error () →
      processMessage ws data cu wi now = Except.ok (false, [])) ∧
    (registryLookup t = some HandlerKind.chat →
      handlerValidate HandlerKind.chat data = true →
      mapGet cu ws.userId = none →
      processMessage ws data cu wi now = Except.ok (true, [])) := by
  refine ⟨?_, ?_, ?_, ?_⟩
  · intro hreg
    unfold processMessage
    rw [ht]
    simp [hreg]
  · intro h hreg hval
    unfold processMessage
    rw [ht]
    simp [hreg, hval]
  · intro h hreg hval hthrow
    unfold processMessage
    rw [ht]
    simp [hreg, hval, hthrow]
  · intro hreg hval hnone
    unfold processMessage
    rw [ht]
    simp [hreg, hval, handlerHandle, chatHandle, hnone]

/-- Instantiation: a frame with an unregistered kind yields `false` and no
deliveries. -/
theorem process_result_c8_amended_witness :
    processMessage uaConn (Json.obj [("type", Json.str "nope")]) [] []
      "t1" = Except.ok (false, []) :=
  (process_result_c8_amended uaConn (Json.obj [("type", Json.str "nope")])
    (some (Json.str "nope")) [] [] "t1" rfl).1 rfl

/-! ### C10 — the empty-string identity is admitted like any other -/

/-- C10: `handleOpen` performs no validation of the identity string: a
socket tagged with the empty-string identity (no cap configured) is
admitted normally — a profile keyed by `""` is created, the roster sent to
the joiner lists it, and a `user_joined` broadcast for it reaches the other
user's socket; no rejection occurs. -/
theorem empty_identity_admitted_c10 :
    handleOpen defaultConfig stB anonConn "t1" =
      Except.ok
        (⟨[("b", cuB), ("", ⟨"", "anon@x", "t1"⟩)],
          [("b", [ubConn]), ("", [anonConn])]⟩,
          [(anonConn, WireMsg.welcome "anon@x"),
            (anonConn, WireMsg.connectedUsers [cuB, ⟨"", "anon@x", "t1"⟩]),
            (ubConn, WireMsg.userJoined ⟨"", "anon@x", "t1"⟩)]) ∧
    mapGet (openState stB anonConn "t1").connectedUsers "" =
      some ⟨"", "anon@x", "t1"⟩ :=
  ⟨rfl, rfl⟩
